import Mathlib

/-!
Verification of the camera-frame acquisition/distribution pipeline of
arena-web-core: the `CameraImageProvider` orchestrator, the AprilTag
marker-detection processor, the OpenVPS visual-positioning processor, and
the persistent-anchor bookkeeping of the armarker system.

Conventions of the embedding:
* JavaScript wall-clock times (`Date.now()`) are modelled as integers (ℤ, in
  milliseconds).
* JavaScript number arithmetic is modelled as exact rational arithmetic (ℚ)
  wherever the observable behaviour does not depend on IEEE-754 rounding
  (sign tests, comparisons, division by constants).  Where rounding is
  observable — the grayscale conversion, whose result is truncated into a
  `Uint8Array` — IEEE-754 binary64 arithmetic is modelled exactly, as dyadic
  rationals with round-to-nearest-even at 53 significant bits.
* Stateful methods become pure functions from a state record to a new state
  record, paired with the externally observable events of the call
  (processor invocations, network requests, worker messages, callbacks).
* Promise results are `Except String Unit`; a promise combinator such as
  `.catch` becomes a function on that type.
-/

namespace ArenaCV

/-! ## CameraImageProvider: state and registration
    (src/systems/cv/cameraImageProvider.js, push-capable variant) -/

/-- A registered CV processor as the provider sees it: an identity (JS `Set`
membership is object identity) and whether `processor.processImage` is a
function (the contract check in `registerProcessor`). -/
structure Processor where
  pid : Nat
  hasProcessImage : Bool
deriving DecidableEq, Repr

/-- The shape of a capture helper relevant to the provider's loop control:
its `usesXRFrame` static classification and whether it exposes a
`startStreaming` method (all helpers extending `BaseCaptureHelper` do). -/
structure HelperInfo where
  usesXRFrame : Bool
  hasStartStreaming : Bool
deriving DecidableEq, Repr

/-- Frame data pushed into `distributeFrameData`: truthiness of its
`imageData` and `metadata` fields. -/
structure FrameData where
  imageDataPresent : Bool
  metadataPresent : Bool
deriving DecidableEq, Repr

/-- The provider's mutable state: the processor registry (a `Set`, kept in
insertion order), the single active capture helper, whether an XR session is
present, and the `isCapturing` / `isPipelineBusy` flags. -/
structure ProviderState where
  xrSessionPresent : Bool
  processors : List Processor
  captureHelper : Option HelperInfo
  isCapturing : Bool
  isPipelineBusy : Bool
deriving DecidableEq, Repr

/-- Provider state after the constructor runs (before API detection
completes): no processors, no helper, not capturing, pipeline idle. -/
def initialProviderState (xr : Bool) : ProviderState :=
  { xrSessionPresent := xr
    processors := []
    captureHelper := none
    isCapturing := false
    isPipelineBusy := false }

/-- JS `Set.prototype.add`: appends in insertion order, no-op on re-add. -/
def setAdd (l : List Processor) (p : Processor) : List Processor :=
  if p ∈ l then l else l ++ [p]

/-- `_startCaptureLoop`: refuses when already capturing or no helper; sets
`isCapturing`; an XR-frame helper needs the XR session (otherwise the flag is
reverted), a push helper needs its `startStreaming` method (otherwise the
flag is reverted). -/
def startCaptureLoop (s : ProviderState) : ProviderState :=
  match s.captureHelper with
  | none => s
  | some h =>
    if s.isCapturing then s
    else
      let s1 := { s with isCapturing := true }
      if h.usesXRFrame then
        if s1.xrSessionPresent then s1 else { s1 with isCapturing := false }
      else
        if h.hasStartStreaming then s1 else { s1 with isCapturing := false }

/-- `_stopCaptureLoop`: clears `isCapturing` (and calls the helper's
`stopStreaming`, which does not change provider state). -/
def stopCaptureLoop (s : ProviderState) : ProviderState :=
  if s.isCapturing then { s with isCapturing := false } else s

/-- `registerProcessor`: rejects an argument without a `processImage`
function; otherwise adds it to the set and, when a helper is active and the
loop is not yet running, starts the capture loop. -/
def registerProcessor (s : ProviderState) (p : Processor) : ProviderState :=
  if p.hasProcessImage = false then s
  else
    let s1 := { s with processors := setAdd s.processors p }
    match s1.captureHelper with
    | some _ =>
      if ¬s1.isCapturing ∧ 0 < s1.processors.length then startCaptureLoop s1 else s1
    | none => s1

/-- `unregisterProcessor`: deletes from the set; stops the capture loop when
the last processor is removed. -/
def unregisterProcessor (s : ProviderState) (p : Processor) : ProviderState :=
  let s1 := { s with processors := s.processors.erase p }
  if s1.isCapturing ∧ s1.processors.length = 0 then stopCaptureLoop s1 else s1

/-- A capture helper finishing `init()` successfully inside
`_detectAndInitializeApi`: installs the helper and starts the loop if
processors are already registered (`if (this.processors.size > 0 &&
!this.isCapturing) this._startCaptureLoop()`). -/
def activateSource (s : ProviderState) (h : HelperInfo) : ProviderState :=
  let s1 := { s with captureHelper := some h }
  if 0 < s1.processors.length ∧ ¬s1.isCapturing then startCaptureLoop s1 else s1

/-- Well-formedness of an installed helper, guaranteed by the detection
logic and the `BaseCaptureHelper` contract: an XR-frame helper is only
installed while an XR session exists, and every push helper implements
`startStreaming`. -/
def wfHelper (s : ProviderState) (h : HelperInfo) : Prop :=
  (h.usesXRFrame = true → s.xrSessionPresent = true) ∧
  (h.usesXRFrame = false → h.hasStartStreaming = true)

/-- Provider states reachable from construction by processor registration,
unregistration, and capture-source activation (a helper winning detection). -/
inductive ReachableProvider : ProviderState → Prop
  | init (xr : Bool) : ReachableProvider (initialProviderState xr)
  | register (s : ProviderState) (p : Processor) :
      ReachableProvider s → ReachableProvider (registerProcessor s p)
  | unregister (s : ProviderState) (p : Processor) :
      ReachableProvider s → ReachableProvider (unregisterProcessor s p)
  | activate (s : ProviderState) (h : HelperInfo) :
      ReachableProvider s → wfHelper s h → ReachableProvider (activateSource s h)

/-- Inductive invariant of the provider registry: the capturing flag agrees
with "some processor is registered and a capture source is active", any
installed helper is well formed, and the registry has no duplicates. -/
def providerInv (s : ProviderState) : Prop :=
  (s.isCapturing = true ↔ s.processors ≠ [] ∧ s.captureHelper.isSome = true) ∧
  (∀ h, s.captureHelper = some h → wfHelper s h) ∧
  s.processors.Nodup

/-! ## CameraImageProvider: frame distribution -/

/-- `_distributeFrameToProcessors(imageData, metadata)`: bails (and resets
the busy flag) on missing data; otherwise launches `processImage` on every
registered processor.  Returns the new state and the list of processors
invoked in this round. -/
def distributeFrameToProcessors (s : ProviderState) (f : FrameData) :
    ProviderState × List Processor :=
  if f.imageDataPresent = false ∨ f.metadataPresent = false then
    ({ s with isPipelineBusy := false }, [])
  else
    (s, s.processors)

/-- `distributeFrameData(frameData)`: the push entry point used by helpers
that run their own loops.  Gates, in source order: provider stopped, no
processors, pipeline busy, invalid frame data; otherwise sets the busy flag
and distributes. -/
def distributeFrameData (s : ProviderState) (fd : Option FrameData) :
    ProviderState × List Processor :=
  if s.isCapturing = false then (s, [])
  else if s.processors.length = 0 then (s, [])
  else if s.isPipelineBusy = true then (s, [])
  else
    match fd with
    | none => (s, [])
    | some f =>
      if f.imageDataPresent = false ∨ f.metadataPresent = false then (s, [])
      else distributeFrameToProcessors { s with isPipelineBusy := true } f

/-- The `.catch((err) => { console.error(...); return null; })` attached to
each processor promise: a rejection is logged and converted into a
fulfilled promise. -/
def catchLogged : Except String Unit → Except String Unit
  | .error _ => .ok ()
  | .ok u => .ok u

/-- The `.finally` of `Promise.all(processingPromises)`: runs once every
per-processor (caught) promise settles, and clears the busy flag. -/
def settleRound (s : ProviderState) : ProviderState :=
  { s with isPipelineBusy := false }

/-! ## AprilTag marker-detection processor
    (cv-processors/apriltag-processor.js) -/

/-- Messages the processor posts to its CV worker (worker-msgs.js message
kinds used by this processor; `PROCESS_GSFRAME` payload omitted — only the
known-marker protocol matters here).  Marker sizes are metres, as exact
rationals. -/
inductive WorkerMsg where
  | init
  | knownMarkerAdd (markerid : String) (size : ℚ)
  | knownMarkerDel (markerid : String)
deriving DecidableEq, Repr

/-- AprilTag processor state: worker readiness, the authoritative
known-marker map (a JS `Map`, insertion-ordered), and the log of messages
posted to the worker so far. -/
structure AprilTagState where
  cvWorkerReady : Bool
  knownMarkers : List (String × ℚ)
  sentMessages : List WorkerMsg
deriving DecidableEq, Repr

/-- State after the constructor: worker spawned and an `INIT` message
posted, not yet ready, no known markers. -/
def aprilTagInitState : AprilTagState :=
  { cvWorkerReady := false, knownMarkers := [], sentMessages := [.init] }

/-- JS `Map.prototype.set`: updates an existing key in place, otherwise
appends in insertion order. -/
def mapSet (m : List (String × ℚ)) (k : String) (v : ℚ) : List (String × ℚ) :=
  if m.any (fun kv => kv.1 = k) then
    m.map (fun kv => if kv.1 = k then (k, v) else kv)
  else m ++ [(k, v)]

/-- `_sendMarkerToWorker`: posts `KNOWN_MARKER_ADD` only when the worker is
ready. -/
def sendMarkerToWorker (s : AprilTagState) (markerId : String) (sizeInMeters : ℚ) :
    AprilTagState :=
  if s.cvWorkerReady then
    { s with sentMessages := s.sentMessages ++ [.knownMarkerAdd markerId sizeInMeters] }
  else s

/-- `addKnownMarker(markerId, sizeInMillimeters)`: `parseFloat` yields `none`
for a non-numeric argument (NaN); the size is converted to metres by
dividing by 1000 and rejected when NaN or non-positive; otherwise the map is
updated and, if the worker is ready, the marker is sent immediately. -/
def addKnownMarker (s : AprilTagState) (markerId : String)
    (sizeInMillimeters : Option ℚ) : AprilTagState :=
  match sizeInMillimeters with
  | none => s
  | some mm =>
    let sizeInMeters := mm / 1000
    if sizeInMeters ≤ 0 then s
    else
      let s1 := { s with knownMarkers := mapSet s.knownMarkers markerId sizeInMeters }
      if s1.cvWorkerReady then sendMarkerToWorker s1 markerId sizeInMeters else s1

/-- `removeKnownMarker(markerId)`: deletes from the map and, when the worker
is ready, posts `KNOWN_MARKER_DEL`. -/
def removeKnownMarker (s : AprilTagState) (markerId : String) : AprilTagState :=
  let s1 := { s with knownMarkers := s.knownMarkers.filter (fun kv => kv.1 ≠ markerId) }
  if s1.cvWorkerReady then
    { s1 with sentMessages := s1.sentMessages ++ [.knownMarkerDel markerId] }
  else s1

/-- The `INIT_DONE` branch of `_handleCvWorkerMessage`: marks the worker
ready and replays the whole known-marker map, in map order, via
`_sendMarkerToWorker`. -/
def handleInitDone (s : AprilTagState) : AprilTagState :=
  let s1 := { s with cvWorkerReady := true }
  s1.knownMarkers.foldl (fun acc kv => sendMarkerToWorker acc kv.1 kv.2) s1

/-- Count of `KNOWN_MARKER_ADD` messages for a given marker id in a message
log. -/
def countMarkerAdds (msgs : List WorkerMsg) (markerId : String) : Nat :=
  msgs.countP (fun m =>
    match m with
    | .knownMarkerAdd i _ => i = markerId
    | _ => false)

/-! ## IEEE-754 binary64 model (dyadic rationals)

The grayscale conversion stores `0.299*R + 0.587*G + 0.114*B`, evaluated in
JavaScript double precision, into a `Uint8Array` (ECMAScript `ToUint8`:
truncate toward zero, then reduce mod 2⁸).  All values arising there are
nonnegative and of magnitude between 2⁻⁶⁰ and 2⁶⁰, so binary64 arithmetic is
exactly round-to-nearest-even at 53 significand bits, with no overflow,
underflow or subnormals.  A double is represented as a mantissa/exponent
pair `(m, e)` denoting `m · 2^e` with `m : ℕ` (only nonnegative values
occur). -/

/-- Nonnegative dyadic rational `m · 2^e`. -/
abbrev Dyadic := ℕ × ℤ

/-- Rational value of a dyadic. -/
def dyVal (d : Dyadic) : ℚ := (d.1 : ℚ) * (2 : ℚ) ^ d.2

/-- `⌊log₂ n⌋` for `n ≥ 1`, by fuelled halving (fuel must exceed the bit
length; all mantissas in this file are below `2^200`). -/
def flog2 : ℕ → ℕ → ℕ
  | 0, _ => 0
  | fuel + 1, n => if n ≤ 1 then 0 else flog2 fuel (n / 2) + 1

/-- Round `m / 2^k` to the nearest integer, ties to even. -/
def roundShift (m : ℕ) (k : ℕ) : ℕ :=
  if k = 0 then m
  else
    let q := m / 2 ^ k
    let r := m % 2 ^ k
    let half := 2 ^ (k - 1)
    if half < r then q + 1
    else if r < half then q
    else if q % 2 = 0 then q else q + 1

/-- Round a nonnegative dyadic to 53 significand bits, nearest/ties-even:
the binary64 rounding of an exact intermediate result (in the exponent range
used here). -/
def round53 (d : Dyadic) : Dyadic :=
  if d.1 = 0 then (0, 0)
  else
    let b := flog2 200 d.1
    if b ≤ 52 then d
    else (roundShift d.1 (b - 52), d.2 + (b - 52))

/-- The binary64 value nearest to `n / d` (for `2⁻¹⁰⁰ < n/d < 2²⁰`, which
covers the decimal literals 0.299, 0.587, 0.114): round `n/d` to 53
significand bits, nearest/ties-even. -/
def roundRat53 (n d : ℕ) : Dyadic :=
  if n = 0 ∨ d = 0 then (0, 0)
  else
    let t := flog2 200 (2 ^ 120 * n / d)
    let shift := 52 + 120 - t
    let num := n * 2 ^ shift
    let q := num / d
    let r := num % d
    let m := if d < 2 * r then q + 1
             else if 2 * r < d then q
             else if q % 2 = 0 then q else q + 1
    (m, (t : ℤ) - 120 - 52)

/-- Binary64 multiplication (exact product, then rounded). -/
def mulDy (x y : Dyadic) : Dyadic := round53 (x.1 * y.1, x.2 + y.2)

/-- Binary64 addition (exact aligned sum, then rounded). -/
def addDy (x y : Dyadic) : Dyadic :=
  let e := min x.2 y.2
  round53 (x.1 * 2 ^ (x.2 - e).toNat + y.1 * 2 ^ (y.2 - e).toNat, e)

/-- Truncation toward zero of a nonnegative dyadic (equals `Math.trunc`). -/
def truncDy (d : Dyadic) : ℕ :=
  if 0 ≤ d.2 then d.1 * 2 ^ d.2.toNat else d.1 / 2 ^ (-d.2).toNat

/-- The double nearest `0.299`. -/
def dbl299 : Dyadic := roundRat53 299 1000
/-- The double nearest `0.587`. -/
def dbl587 : Dyadic := roundRat53 587 1000
/-- The double nearest `0.114`. -/
def dbl114 : Dyadic := roundRat53 114 1000

/-- The double evaluation of `0.299 * r + 0.587 * g + 0.114 * b` (left
associated, every operation rounded), as the source line computes it. -/
def gsDouble (r g b : ℕ) : Dyadic :=
  addDy (addDy (mulDy dbl299 (r, 0)) (mulDy dbl587 (g, 0))) (mulDy dbl114 (b, 0))

/-- The byte stored by `this.grayscaleBuffer[j] = 0.299*buffer[i] + ...`:
ECMAScript `ToUint8` of the double sum (truncate toward zero, mod 2⁸). -/
def gsByte (r g b : ℕ) : ℕ := truncDy (gsDouble r g b) % 256

/-- `_softwareGrayscale`: the loop `for (i = 0, j = 0; i < buffer.length;
i += 4, j++)` walking the RGBA buffer one 4-byte pixel at a time, storing
one intensity byte per pixel (a trailing partial pixel, impossible for a
well-formed buffer, produces nothing). -/
def softwareGrayscale : List ℕ → List ℕ
  | r :: g :: b :: _a :: rest => gsByte r g b :: softwareGrayscale rest
  | _ => []

/-! ## AprilTag `processImage`: grayscale path selection -/

/-- The `imageData` argument of the AprilTag `processImage`, as far as path
selection goes: truthiness, presence of `buffer` and `canvas`, and pixel
format. -/
structure ATImageInput where
  present : Bool
  hasBuffer : Bool
  hasCanvas : Bool
  format : String
deriving DecidableEq, Repr

/-- Which grayscale conversion a `processImage` call performs. -/
inductive GrayscalePath where
  | canvasPath
  | softwarePath
  | skipped
deriving DecidableEq, Repr

/-- Path selection in the AprilTag `processImage`: skip when the worker is
not ready, when neither buffer nor canvas is present, or when intrinsics are
missing; prefer the canvas `grayscale(100%)` filter for an RGBA canvas,
falling back to `_softwareGrayscale` when the filter throws and a buffer
exists; use `_softwareGrayscale` directly for an RGBA buffer without canvas;
skip any other format.  `canvasOk` is whether the platform filter path
succeeds. -/
def aprilProcessImagePath (ready : Bool) (img : ATImageInput)
    (hasIntrinsics : Bool) (canvasOk : Bool) : GrayscalePath :=
  if ready = false then .skipped
  else if img.present = false ∨ (img.hasBuffer = false ∧ img.hasCanvas = false) then .skipped
  else if hasIntrinsics = false then .skipped
  else if img.hasCanvas = true ∧ img.format = "RGBA" then
    if canvasOk then .canvasPath
    else if img.hasBuffer then .softwarePath else .skipped
  else if img.hasBuffer = true ∧ img.format = "RGBA" then .softwarePath
  else .skipped

/-! ## OpenVPS visual-positioning processor
    (cv-processors/openvps-processor.js)

`processImage` is modelled in two phases around its one suspension point,
the awaited `mapServer.localize` network call: `vpsProcessImageStart` is
everything up to that await (the eligibility gate, setting `isBusy` and
`lastSendTime`, preparing the blob), and the result handling — the rest of
the `try`, the `catch`, and the `finally` — is `vpsHandleLocalizeResult` /
`vpsCatch`.  A second `processImage` call interleaving with an outstanding
request therefore runs against the intermediate state, exactly as on the JS
event loop. -/

/-- Configuration of the OpenVPS processor (times in milliseconds). -/
structure VPSOptions where
  interval : ℤ
  maxRetries : ℕ
  retryDelay : ℤ
  hasOnPoseUpdate : Bool
deriving DecidableEq, Repr

/-- Mutable state of the OpenVPS processor. -/
structure VPSState where
  isEnabled : Bool
  hasMapServer : Bool
  isBusy : Bool
  lastSendTime : ℤ
  retryCount : ℕ
deriving DecidableEq, Repr

/-- The `imageData` argument as the gate sees it, plus whether the two
pre-network steps inside the `try` succeed (canvas-to-blob conversion, and
`metadata.viewTransformMatrix` being a valid matrix). -/
structure VPSImageInput where
  present : Bool
  hasBuffer : Bool
  format : String
  blobOk : Bool
  viewMatrixOk : Bool
deriving DecidableEq, Repr

/-- How a `processImage` call proceeds past the gate. -/
inductive VPSPhase where
  /-- One of the gates failed: the call returned without doing anything. -/
  | skipped
  /-- The gate passed but the `try` threw before `mapServer.localize`
  (blob conversion failed or the view matrix was invalid): no network
  request was issued. -/
  | threwBeforeSend
  /-- `mapServer.localize` was called: a network request is outstanding. -/
  | awaitingResponse
deriving DecidableEq, Repr

/-- The settled outcome of the awaited part of a `processImage` call. -/
inductive LocalizeResult where
  /-- `localize` resolved.  `hasPose`: the response is truthy and carries a
  `pose`; `confidence`: its `serverConfidence`; `poseFormatValid`: the pose
  is a 2-D array or a flat 16-element array (otherwise the handler throws
  `Invalid pose format`). -/
  | ok (hasPose : Bool) (confidence : ℚ) (poseFormatValid : Bool)
  /-- `localize` rejected (network error). -/
  | networkError
deriving DecidableEq, Repr

/-- `processImage` up to the `await mapServer.localize(...)`.  Gate order as
in source: disabled / no map server / no image / no buffer; non-RGBA format;
`now - lastSendTime < interval || isBusy`.  On an eligible call `isBusy` is
set and `lastSendTime := now` before anything can fail. -/
def vpsProcessImageStart (opts : VPSOptions) (s : VPSState)
    (img : VPSImageInput) (now : ℤ) : VPSState × VPSPhase :=
  if s.isEnabled = false ∨ s.hasMapServer = false ∨ img.present = false ∨
      img.hasBuffer = false then
    (s, .skipped)
  else if img.format ≠ "RGBA" then (s, .skipped)
  else if now - s.lastSendTime < opts.interval ∨ s.isBusy = true then (s, .skipped)
  else
    let s1 := { s with isBusy := true, lastSendTime := now }
    if img.blobOk = false ∨ img.viewMatrixOk = false then (s1, .threwBeforeSend)
    else (s1, .awaitingResponse)

/-- The `catch` block followed by the `finally`: increments `retryCount`;
while `retryCount ≤ maxRetries` rewinds `lastSendTime` to
`Date.now() - interval + retryDelay` (so the next natural window opens
`retryDelay` after the failure), otherwise sets `lastSendTime := Date.now()`
(full interval back-off); the `finally` clears `isBusy`. -/
def vpsCatch (opts : VPSOptions) (s : VPSState) (failTime : ℤ) : VPSState :=
  let rc := s.retryCount + 1
  let lst := if rc ≤ opts.maxRetries then failTime - opts.interval + opts.retryDelay
             else failTime
  { s with retryCount := rc, lastSendTime := lst, isBusy := false }

/-- The rest of the `try` after `localize` settles, plus `catch`/`finally`.
With a pose and positive confidence: a malformed pose throws into the
`catch`; otherwise the pose-update callback fires (when configured) and
`retryCount` resets.  With a missing pose or non-positive confidence the
response is only debug-logged — no throw — and `retryCount` still resets.
A rejection takes the `catch` path.  Returns the new state and whether the
`onPoseUpdate` callback was invoked. -/
def vpsHandleLocalizeResult (opts : VPSOptions) (s : VPSState)
    (res : LocalizeResult) (settleTime : ℤ) : VPSState × Bool :=
  match res with
  | .ok hasPose confidence poseFormatValid =>
    if hasPose = true ∧ 0 < confidence then
      if poseFormatValid then
        ({ s with retryCount := 0, isBusy := false }, opts.hasOnPoseUpdate)
      else (vpsCatch opts s settleTime, false)
    else
      ({ s with retryCount := 0, isBusy := false }, false)
  | .networkError => (vpsCatch opts s settleTime, false)

/-- The earliest time at which the eligibility gate can pass again:
`lastSendTime + interval` (the gate requires `now - lastSendTime ≥
interval`). -/
def vpsNextEligible (opts : VPSOptions) (s : VPSState) : ℤ :=
  s.lastSendTime + opts.interval

/-! ## Persistent origin anchors (armarker.js `setOriginAnchor`) -/

/-- `MAX_PERSISTENT_ANCHORS` in armarker.js. -/
def MAX_PERSISTENT_ANCHORS : ℕ := 7

/-- The persistence block of `setOriginAnchor`, acting on the platform's
`persistentAnchors` store (a list of handles in creation order, oldest
first), for the path where persisting succeeds: first the previously
recorded origin handle (from `localStorage`, if any) is deleted; then, if
the store still holds at least `MAX_PERSISTENT_ANCHORS` anchors, the oldest
(`persistentAnchors.values().next().value`) is deleted; finally the new
anchor's handle is persisted, appending it to the store. -/
def setOriginAnchorPersist (oldHandle : Option String) (store : List String)
    (newHandle : String) : List String :=
  let store1 := match oldHandle with
    | some h => store.erase h
    | none => store
  let store2 := if MAX_PERSISTENT_ANCHORS ≤ store1.length then store1.drop 1 else store1
  store2 ++ [newHandle]

/-! ## Theorems -/

set_option maxRecDepth 8000

/-- C10: for every argument `p` whose `processImage` member is not a
function, `registerProcessor(p)` logs an error and returns without adding
`p` to the processor set and without starting the capture loop: the
processors set, the capturing flag, and the active capture source are all
unchanged (the failed registration is atomic). -/
theorem registerProcessor_invalid_atomic (s : ProviderState) (p : Processor)
    (h : p.hasProcessImage = false) :
    registerProcessor s p = s ∧
    (registerProcessor s p).processors = s.processors ∧
    (registerProcessor s p).isCapturing = s.isCapturing ∧
    (registerProcessor s p).captureHelper = s.captureHelper := by
  have he : registerProcessor s p = s := by simp [registerProcessor, h]
  exact ⟨he, by rw [he], by rw [he], by rw [he]⟩

/-- Witness for C10 at a concrete invalid processor and provider state. -/
theorem registerProcessor_invalid_atomic_witness :
    registerProcessor (initialProviderState true) ⟨0, false⟩ = initialProviderState true :=
  (registerProcessor_invalid_atomic (initialProviderState true) ⟨0, false⟩ rfl).1

/-- C1: a frame pushed via `distributeFrameData` while the provider is not
capturing, or with no processor registered, or while `pipelineBusy`, or
lacking `imageData`/`metadata`, causes no `processImage` invocation and is
dropped with the state untouched (never queued); and after a frame starts a
round (setting the busy flag), any second pushed frame before the round
settles produces zero additional invocations. -/
theorem distributeFrameData_dropGate (s : ProviderState) (f : FrameData)
    (h1 : s.isCapturing = true) (h2 : s.processors ≠ [])
    (h3 : s.isPipelineBusy = false)
    (h4 : f.imageDataPresent = true) (h5 : f.metadataPresent = true) :
    (∀ (s' : ProviderState) (fd : Option FrameData),
      (s'.isCapturing = false ∨ s'.processors = [] ∨ s'.isPipelineBusy = true ∨
        fd = none ∨
        ∃ g, fd = some g ∧ (g.imageDataPresent = false ∨ g.metadataPresent = false)) →
      distributeFrameData s' fd = (s', [])) ∧
    (distributeFrameData s (some f)).1.isPipelineBusy = true ∧
    (∀ fd2 : Option FrameData,
      distributeFrameData (distributeFrameData s (some f)).1 fd2
        = ((distributeFrameData s (some f)).1, [])) := by
  have hfirst : distributeFrameData s (some f)
      = ({ s with isPipelineBusy := true }, s.processors) := by
    simp [distributeFrameData, distributeFrameToProcessors, h1, h2, h3, h4, h5]
  refine ⟨?_, ?_, ?_⟩
  · rintro s' fd (hc | hp | hb | hn | ⟨g, hg, hbad⟩)
    · simp [distributeFrameData, hc]
    · rcases hcap : s'.isCapturing with _ | _
      · simp [distributeFrameData, hcap]
      · simp [distributeFrameData, hcap, hp]
    · rcases hcap : s'.isCapturing with _ | _
      · simp [distributeFrameData, hcap]
      · rcases hlen : s'.processors.length with _ | n
        · simp [distributeFrameData, hcap, hlen]
        · simp [distributeFrameData, hcap, hlen, hb]
    · subst hn
      simp [distributeFrameData]
    · subst hg
      rcases hbad with hbad | hbad <;> simp [distributeFrameData, hbad]
  · rw [hfirst]
  · intro fd2
    rw [hfirst]
    simp [distributeFrameData]

/-- Witness for C1 at a concrete capturing state with one processor and a
valid pushed frame. -/
theorem distributeFrameData_dropGate_witness :
    (distributeFrameData
        { xrSessionPresent := true, processors := [⟨1, true⟩],
          captureHelper := some ⟨false, true⟩, isCapturing := true,
          isPipelineBusy := false }
        (some ⟨true, true⟩)).1.isPipelineBusy = true :=
  (distributeFrameData_dropGate _ ⟨true, true⟩ rfl (by decide) rfl rfl rfl).2.1

/-- C2: a distribution round invokes `processImage` exactly once on each
registered processor (for any number N ≥ 0 of them), and the round settles —
every per-processor promise is caught, so `Promise.all` fulfills for every
outcome assignment, including any subset of rejections — after which the
`finally` clears `pipelineBusy`. -/
theorem distributeRound_exactlyOnce_settles (s : ProviderState) (f : FrameData)
    (hnd : s.processors.Nodup)
    (h4 : f.imageDataPresent = true) (h5 : f.metadataPresent = true) :
    (distributeFrameToProcessors s f).2 = s.processors ∧
    (∀ p ∈ s.processors, (distributeFrameToProcessors s f).2.count p = 1) ∧
    (∀ outcomes : Processor → Except String Unit,
      ((distributeFrameToProcessors s f).2.map
        (fun p => catchLogged (outcomes p))).all (fun e => e.isOk) = true) ∧
    (settleRound (distributeFrameToProcessors s f).1).isPipelineBusy = false := by
  have hinv : (distributeFrameToProcessors s f).2 = s.processors := by
    simp [distributeFrameToProcessors, h4, h5]
  refine ⟨hinv, ?_, ?_, ?_⟩
  · intro p hp
    rw [hinv]
    exact List.count_eq_one_of_mem hnd hp
  · intro outcomes
    rw [hinv, List.all_eq_true]
    intro e he
    rw [List.mem_map] at he
    obtain ⟨p, _, hpe⟩ := he
    rcases houtcome : outcomes p with u | err <;>
      simp [catchLogged, houtcome, Except.isOk, Except.toBool] at hpe ⊢ <;> simp [← hpe]
  · simp [settleRound]

/-- Witness for C2 with two processors, one of which rejects. -/
theorem distributeRound_exactlyOnce_settles_witness :
    (distributeFrameToProcessors
        { xrSessionPresent := true, processors := [⟨1, true⟩, ⟨2, true⟩],
          captureHelper := some ⟨false, true⟩, isCapturing := true,
          isPipelineBusy := true }
        ⟨true, true⟩).2 = [⟨1, true⟩, ⟨2, true⟩] :=
  (distributeRound_exactlyOnce_settles _ ⟨true, true⟩ (by decide) rfl rfl).1

/-- C9, counterexample: with the store at exactly 7 anchors and the
previously recorded origin handle being the newest anchor, persisting a new
origin anchor evicts that recorded handle — not the oldest: the oldest
anchor "a1" survives and the resulting store is not the 7 most-recently-
created records. -/
theorem setOriginAnchorPersist_notAlwaysOldest :
    MAX_PERSISTENT_ANCHORS ≤
      (["a1", "a2", "a3", "a4", "a5", "a6", "a7"] : List String).length ∧
    setOriginAnchorPersist (some "a7")
        ["a1", "a2", "a3", "a4", "a5", "a6", "a7"] "a8"
      = ["a1", "a2", "a3", "a4", "a5", "a6", "a8"] ∧
    "a1" ∈ setOriginAnchorPersist (some "a7")
        ["a1", "a2", "a3", "a4", "a5", "a6", "a7"] "a8" ∧
    setOriginAnchorPersist (some "a7")
        ["a1", "a2", "a3", "a4", "a5", "a6", "a7"] "a8"
      ≠ ["a2", "a3", "a4", "a5", "a6", "a7", "a8"] := by
  refine ⟨by decide, by decide, by decide, by decide⟩

/-- C9, amended: when a new origin anchor is persisted, the previously
recorded origin handle (if any) is deleted first; if the store still holds
at least 7 anchors after that, exactly one anchor — the oldest — is evicted
before the new handle is stored; in particular inserting 8 records with no
previously recorded handle into an empty store leaves the 7
most-recently-created records. -/
theorem setOriginAnchorPersist_boundedEviction (store : List String)
    (nh n1 n2 n3 n4 n5 n6 n7 n8 : String) (oldH : Option String)
    (hold : ∀ h, oldH = some h → h ∉ store)
    (hlen : MAX_PERSISTENT_ANCHORS ≤ store.length) :
    setOriginAnchorPersist oldH store nh = store.drop 1 ++ [nh] ∧
    (setOriginAnchorPersist oldH store nh).length = store.length ∧
    List.foldl (fun st h => setOriginAnchorPersist none st h) []
        [n1, n2, n3, n4, n5, n6, n7, n8]
      = [n2, n3, n4, n5, n6, n7, n8] := by
  have hmain : setOriginAnchorPersist oldH store nh = store.drop 1 ++ [nh] := by
    rcases oldH with _ | h
    · simp [setOriginAnchorPersist, hlen]
    · have herase : store.erase h = store := List.erase_of_not_mem (hold h rfl)
      simp [setOriginAnchorPersist, herase, hlen]
  refine ⟨hmain, ?_, ?_⟩
  · rw [hmain]
    simp only [List.length_append, List.length_drop, List.length_cons,
      List.length_nil]
    have h1 : 1 ≤ store.length := le_trans (by norm_num [MAX_PERSISTENT_ANCHORS]) hlen
    omega
  · simp [setOriginAnchorPersist, MAX_PERSISTENT_ANCHORS]

/-- Witness for C9 (amended) at a concrete store of 7 handles and no
previously recorded origin handle. -/
theorem setOriginAnchorPersist_boundedEviction_witness :
    setOriginAnchorPersist none
        ["b1", "b2", "b3", "b4", "b5", "b6", "b7"] "b8"
      = ["b2", "b3", "b4", "b5", "b6", "b7", "b8"] :=
  ((setOriginAnchorPersist_boundedEviction
      ["b1", "b2", "b3", "b4", "b5", "b6", "b7"] "b8"
      "x1" "x2" "x3" "x4" "x5" "x6" "x7" "x8" none
      (fun _ h => by cases h) (by decide)).1).trans (by decide)

/-- C4: `addKnownMarker` converts millimetres to metres by dividing by 1000
and rejects a non-positive or non-numeric size without touching the map or
the worker; a marker added before worker readiness is buffered in the map
and, once `INIT_DONE` arrives, exactly one `KNOWN_MARKER_ADD` message is
sent for it carrying the metre size — registration is order-independent of
worker startup. -/
theorem addKnownMarker_bufferAndReplay (id : String) (mm mm' : ℚ)
    (hpos : 0 < mm) (hneg : mm' ≤ 0) :
    (∀ s : AprilTagState, addKnownMarker s id (some mm') = s) ∧
    (∀ s : AprilTagState, addKnownMarker s id none = s) ∧
    (addKnownMarker aprilTagInitState id (some mm)).knownMarkers
      = [(id, mm / 1000)] ∧
    (addKnownMarker aprilTagInitState id (some mm)).sentMessages = [.init] ∧
    (handleInitDone (addKnownMarker aprilTagInitState id (some mm))).sentMessages
      = [.init, .knownMarkerAdd id (mm / 1000)] ∧
    countMarkerAdds
      (handleInitDone (addKnownMarker aprilTagInitState id (some mm))).sentMessages
      id = 1 := by
  have hneg' : mm' / 1000 ≤ 0 := by linarith
  have hpos' : ¬ (mm / 1000 ≤ 0) := by
    rw [not_le]
    linarith
  have hbuf : addKnownMarker aprilTagInitState id (some mm)
      = { cvWorkerReady := false, knownMarkers := [(id, mm / 1000)],
          sentMessages := [.init] } := by
    simp [addKnownMarker, hpos', aprilTagInitState, mapSet]
  refine ⟨?_, ?_, ?_, ?_, ?_, ?_⟩
  · intro s
    simp [addKnownMarker, hneg']
  · intro s
    rfl
  · rw [hbuf]
  · rw [hbuf]
  · rw [hbuf]
    simp [handleInitDone, sendMarkerToWorker]
  · rw [hbuf]
    simp [handleInitDone, sendMarkerToWorker, countMarkerAdds]

/-- Witness for C4: `addKnownMarker("12", 100)` before readiness followed by
`INIT_DONE` yields exactly one `KNOWN_MARKER_ADD` for id "12" with the metre
size 0.1; `addKnownMarker("12", -5)` is rejected and never reaches the
worker. -/
theorem addKnownMarker_bufferAndReplay_witness :
    (handleInitDone (addKnownMarker aprilTagInitState "12" (some 100))).sentMessages
      = [.init, .knownMarkerAdd "12" (1 / 10)] ∧
    addKnownMarker aprilTagInitState "12" (some (-5)) = aprilTagInitState := by
  have h := addKnownMarker_bufferAndReplay "12" 100 (-5) (by norm_num) (by norm_num)
  constructor
  · rw [h.2.2.2.2.1]
    norm_num
  · exact h.1 aprilTagInitState

/-- A `localize` round that does not throw (a well-formed response, with or
without a usable fix) resets `retryCount`, clears `isBusy`, and leaves
`lastSendTime` untouched. -/
theorem vpsHandleOk_state (opts : VPSOptions) (s : VPSState)
    (hasPose : Bool) (conf : ℚ) (t : ℤ) :
    (vpsHandleLocalizeResult opts s (.ok hasPose conf true) t).1
      = { s with retryCount := 0, isBusy := false } := by
  unfold vpsHandleLocalizeResult
  by_cases hc : hasPose = true ∧ 0 < conf <;> simp [hc]

/-- C5: a `processImage` call issues a localization request only when the
processor is enabled, the format is RGBA, the elapsed time since
`lastSendTime` is at least `interval`, and `isBusy` is false; an issued
request leaves the processor busy so that any overlapping call issues
nothing (single outstanding request); and after the round settles without a
failure, a call less than `interval` after the send is still a no-op — two
calls spaced under `interval` apart produce at most one network request. -/
theorem vpsProcessImage_rateLimit (opts : VPSOptions) (s : VPSState)
    (img img2 : VPSImageInput) (now t1 settleT : ℤ) (hasPose : Bool) (conf : ℚ)
    (hstart : (vpsProcessImageStart opts s img now).2 = .awaitingResponse)
    (hlt : t1 - now < opts.interval) :
    (∀ (s' : VPSState) (img' : VPSImageInput) (n : ℤ),
      (vpsProcessImageStart opts s' img' n).2 = .awaitingResponse →
      s'.isEnabled = true ∧ img'.format = "RGBA" ∧
      opts.interval ≤ n - s'.lastSendTime ∧ s'.isBusy = false) ∧
    (vpsProcessImageStart opts s img now).1.isBusy = true ∧
    (∀ (img3 : VPSImageInput) (n2 : ℤ),
      (vpsProcessImageStart opts (vpsProcessImageStart opts s img now).1 img3 n2).2
        = .skipped) ∧
    (vpsProcessImageStart opts
        (vpsHandleLocalizeResult opts (vpsProcessImageStart opts s img now).1
          (.ok hasPose conf true) settleT).1 img2 t1).2 = .skipped := by
  have gate : ∀ (s' : VPSState) (img' : VPSImageInput) (n : ℤ),
      (vpsProcessImageStart opts s' img' n).2 = .awaitingResponse →
      s'.isEnabled = true ∧ s'.hasMapServer = true ∧ img'.format = "RGBA" ∧
      opts.interval ≤ n - s'.lastSendTime ∧ s'.isBusy = false := by
    intro s' img' n h
    unfold vpsProcessImageStart at h
    split_ifs at h with g1 g2 g3 g4
    push_neg at g1 g3
    exact ⟨by simpa using g1.1, by simpa using g1.2.1, by simpa using g2,
      g3.1, by simpa using g3.2⟩
  have hg := gate s img now hstart
  have hsent : (vpsProcessImageStart opts s img now).1
      = { s with isBusy := true, lastSendTime := now } := by
    unfold vpsProcessImageStart at hstart ⊢
    split_ifs at hstart ⊢ with g1 g2 g3 g4
    rfl
  refine ⟨fun s' img' n h => by
      have hgg := gate s' img' n h
      exact ⟨hgg.1, hgg.2.2.1, hgg.2.2.2.1, hgg.2.2.2.2⟩, ?_, ?_, ?_⟩
  · rw [hsent]
  · intro img3 n2
    rw [hsent]
    unfold vpsProcessImageStart
    split_ifs with g1 g2 g3 g4 <;> first | rfl | exact absurd (Or.inr rfl) g3
  · rw [hsent, vpsHandleOk_state]
    unfold vpsProcessImageStart
    split_ifs with g1 g2 g3 g4 <;> first | rfl | exact absurd (Or.inl hlt) g3

/-- Witness for C5 at concrete options, state, image and times. -/
theorem vpsProcessImage_rateLimit_witness :
    (vpsProcessImageStart
        ⟨5000, 3, 1000, false⟩
        ⟨true, true, false, 0, 0⟩
        ⟨true, true, "RGBA", true, true⟩ 5000).1.isBusy = true :=
  (vpsProcessImage_rateLimit ⟨5000, 3, 1000, false⟩ ⟨true, true, false, 0, 0⟩
      ⟨true, true, "RGBA", true, true⟩ ⟨true, true, "RGBA", true, true⟩
      5000 6000 5100 true 1 (by decide) (by decide)).2.1

/-- C6: every failing localization attempt increments `retryCount`; while
the incremented count is within `maxRetries` the next-eligible send time
becomes `retryDelay` after the failure (sooner than the normal `interval`);
once `maxRetries` is exceeded the next-eligible time is the full `interval`
after the failure; with `maxRetries = 2`, a third consecutive failure backs
off to the full interval; a successful (non-throwing) round resets
`retryCount` to 0. -/
theorem vpsRetrySchedule (opts opts2 : VPSOptions) (s s' s0 : VPSState)
    (t t' t1 t2 t3 : ℤ) (hasPose : Bool) (conf : ℚ)
    (hunder : s.retryCount + 1 ≤ opts.maxRetries)
    (hover : opts.maxRetries < s'.retryCount + 1)
    (hrd : opts.retryDelay < opts.interval)
    (hmax2 : opts2.maxRetries = 2) (hrc0 : s0.retryCount = 0) :
    (vpsHandleLocalizeResult opts s .networkError t).1 = vpsCatch opts s t ∧
    (vpsCatch opts s t).retryCount = s.retryCount + 1 ∧
    vpsNextEligible opts (vpsCatch opts s t) = t + opts.retryDelay ∧
    vpsNextEligible opts (vpsCatch opts s t) < t + opts.interval ∧
    vpsNextEligible opts (vpsCatch opts s' t') = t' + opts.interval ∧
    vpsNextEligible opts2
        ((vpsHandleLocalizeResult opts2
          ((vpsHandleLocalizeResult opts2
            ((vpsHandleLocalizeResult opts2 s0 .networkError t1).1)
            .networkError t2).1)
          .networkError t3).1)
      = t3 + opts2.interval ∧
    (vpsHandleLocalizeResult opts s (.ok hasPose conf true) t).1.retryCount = 0 := by
  refine ⟨rfl, rfl, ?_, ?_, ?_, ?_, ?_⟩
  · simp only [vpsNextEligible, vpsCatch, if_pos hunder]
    ring
  · simp only [vpsNextEligible, vpsCatch, if_pos hunder]
    linarith
  · simp only [vpsNextEligible, vpsCatch, if_neg (not_le.mpr hover)]
  · simp only [vpsNextEligible, vpsHandleLocalizeResult, vpsCatch, hmax2, hrc0]
    norm_num
  · rw [vpsHandleOk_state]

/-- Witness for C6 at concrete options, states and times. -/
theorem vpsRetrySchedule_witness :
    vpsNextEligible ⟨5000, 3, 1000, false⟩
        (vpsCatch ⟨5000, 3, 1000, false⟩ ⟨true, true, true, 0, 0⟩ 7000)
      = 8000 :=
  (vpsRetrySchedule ⟨5000, 3, 1000, false⟩ ⟨5000, 2, 1000, false⟩
      ⟨true, true, true, 0, 0⟩ ⟨true, true, true, 0, 5⟩ ⟨true, true, true, 0, 0⟩
      7000 9000 100 200 300 true 1
      (by decide) (by decide) (by decide) rfl rfl).2.2.1

/-- C7, counterexample: a response with a pose but confidence 0 (a
"low confidence" response) does not take the retry path: `retryCount` is
reset to 0 — not incremented — and `lastSendTime` keeps the value set at
send time, so the next-eligible time is the full interval after the send,
not shortened to `retryDelay` after the failure.  (The callback is indeed
not invoked.) -/
theorem vpsLowConfidence_counterexample :
    (vpsHandleLocalizeResult ⟨5000, 3, 1000, true⟩
        ⟨true, true, true, 5000, 0⟩ (.ok true 0 true) 5050).1.retryCount = 0 ∧
    ¬ ((vpsHandleLocalizeResult ⟨5000, 3, 1000, true⟩
        ⟨true, true, true, 5000, 0⟩ (.ok true 0 true) 5050).1.retryCount
      = (0 : ℕ) + 1) ∧
    vpsNextEligible ⟨5000, 3, 1000, true⟩
        (vpsHandleLocalizeResult ⟨5000, 3, 1000, true⟩
          ⟨true, true, true, 5000, 0⟩ (.ok true 0 true) 5050).1 = 10000 ∧
    ¬ (vpsNextEligible ⟨5000, 3, 1000, true⟩
        (vpsHandleLocalizeResult ⟨5000, 3, 1000, true⟩
          ⟨true, true, true, 5000, 0⟩ (.ok true 0 true) 5050).1
      = 5050 + (1000 : ℤ)) ∧
    (vpsHandleLocalizeResult ⟨5000, 3, 1000, true⟩
        ⟨true, true, true, 5000, 0⟩ (.ok true 0 true) 5050).2 = false := by
  refine ⟨by decide, by decide, by decide, by decide, by decide⟩

/-- C7, amended: a response with confidence ≤ 0 or a missing pose means
"no fix" and is never surfaced as an error: the pose-update callback is not
invoked, no exception is thrown, and — contrary to the retry path —
`retryCount` is reset to 0 and the next-eligible time stays the normal
`lastSendTime + interval` window (it is not shortened to `retryDelay`). -/
theorem vpsLowConfidence_silentNoFix (opts : VPSOptions) (s : VPSState)
    (hasPose fmt : Bool) (conf : ℚ) (t : ℤ)
    (h : hasPose = false ∨ conf ≤ 0) :
    vpsHandleLocalizeResult opts s (.ok hasPose conf fmt) t
      = ({ s with retryCount := 0, isBusy := false }, false) ∧
    vpsNextEligible opts
        (vpsHandleLocalizeResult opts s (.ok hasPose conf fmt) t).1
      = s.lastSendTime + opts.interval := by
  have hcond : ¬ (hasPose = true ∧ 0 < conf) := by
    rcases h with h | h
    · rintro ⟨h1, _⟩
      rw [h] at h1
      cases h1
    · rintro ⟨_, h2⟩
      exact absurd h2 (not_lt.mpr h)
  constructor
  · unfold vpsHandleLocalizeResult
    simp [hcond]
  · unfold vpsHandleLocalizeResult
    simp [hcond, vpsNextEligible]

/-- Witness for C7 (amended) at a concrete zero-confidence response. -/
theorem vpsLowConfidence_silentNoFix_witness :
    vpsHandleLocalizeResult ⟨5000, 3, 1000, true⟩ ⟨true, true, true, 200, 1⟩
        (.ok true 0 true) 300
      = (⟨true, true, false, 200, 0⟩, false) :=
  (vpsLowConfidence_silentNoFix ⟨5000, 3, 1000, true⟩ ⟨true, true, true, 200, 1⟩
      true true 0 300 (Or.inr (by norm_num))).1

/-- C8, counterexample: the software grayscale value is not the exact
weighted per-channel sum.  For the single RGBA pixel (1, 0, 0, 255) the
stored intensity byte is 0, but 0.299·1 + 0.587·0 + 0.114·0 = 0.299 ≠ 0:
the sum is evaluated in double precision and truncated into the 8-bit
`grayscaleBuffer`. -/
theorem softwareGrayscale_notWeightedSum :
    softwareGrayscale [1, 0, 0, 255] = [0] ∧
    ¬ ((0 : ℚ) = 299 / 1000 * 1 + 587 / 1000 * 0 + 114 / 1000 * 0) :=
  ⟨by decide, by norm_num⟩

/-- C8, amended: via the software path, the intensity byte of pixel `j` is
the IEEE-754 double-precision evaluation of
`0.299*R + 0.587*G + 0.114*B` truncated into the 8-bit buffer (so a pixel
with R = G = B = 1 stores 0, the double sum being just below 1); the
platform-accelerated canvas grayscale filter is used when a canvas is
available with RGBA format, with the software computation as fallback if
the filter fails and a buffer is present, and directly when only a buffer
is present. -/
theorem softwareGrayscale_dblTruncation (buffer : List ℕ) (j r g b a : ℕ)
    (rest : List ℕ) (hdrop : buffer.drop (4 * j) = r :: g :: b :: a :: rest) :
    (softwareGrayscale buffer)[j]? = some (gsByte r g b) ∧
    gsByte 1 1 1 = 0 ∧
    (∀ (img : ATImageInput) (cOk : Bool),
      img.present = true → img.hasCanvas = true → img.format = "RGBA" →
      cOk = true → aprilProcessImagePath true img true cOk = .canvasPath) ∧
    (∀ img : ATImageInput,
      img.present = true → img.hasCanvas = true → img.hasBuffer = true →
      img.format = "RGBA" →
      aprilProcessImagePath true img true false = .softwarePath) ∧
    (∀ (img : ATImageInput) (cOk : Bool),
      img.present = true → img.hasCanvas = false → img.hasBuffer = true →
      img.format = "RGBA" →
      aprilProcessImagePath true img true cOk = .softwarePath) := by
  refine ⟨?_, by decide, ?_, ?_, ?_⟩
  · induction j generalizing buffer with
    | zero =>
      have hb : buffer = r :: g :: b :: a :: rest := by simpa using hdrop
      subst hb
      simp [softwareGrayscale]
    | succ k ih =>
      rcases buffer with _ | ⟨x1, _ | ⟨x2, _ | ⟨x3, _ | ⟨x4, tail⟩⟩⟩⟩
      · simp at hdrop
      · rw [show 4 * (k + 1) = 4 * k + 4 by ring] at hdrop
        rw [List.drop_eq_nil_of_le
          (by simp only [List.length_cons, List.length_nil]; omega)] at hdrop
        cases hdrop
      · rw [show 4 * (k + 1) = 4 * k + 4 by ring] at hdrop
        rw [List.drop_eq_nil_of_le
          (by simp only [List.length_cons, List.length_nil]; omega)] at hdrop
        cases hdrop
      · rw [show 4 * (k + 1) = 4 * k + 4 by ring] at hdrop
        rw [List.drop_eq_nil_of_le
          (by simp only [List.length_cons, List.length_nil]; omega)] at hdrop
        cases hdrop
      · have htail : tail.drop (4 * k) = r :: g :: b :: a :: rest := by
          rw [show 4 * (k + 1) = 4 * k + 4 by ring] at hdrop
          simpa [List.drop] using hdrop
        have := ih tail htail
        simpa [softwareGrayscale] using this
  · intro img cOk h1 h2 h3 h4
    simp [aprilProcessImagePath, h1, h2, h3, h4]
  · intro img h1 h2 h3 h4
    simp [aprilProcessImagePath, h1, h2, h3, h4]
  · intro img cOk h1 h2 h3 h4
    simp [aprilProcessImagePath, h1, h2, h3, h4]

/-- Witness for C8 (amended) on a concrete one-pixel buffer. -/
theorem softwareGrayscale_dblTruncation_witness :
    (softwareGrayscale [10, 20, 30, 255])[0]? = some (gsByte 10 20 30) :=
  (softwareGrayscale_dblTruncation [10, 20, 30, 255] 0 10 20 30 255 [] rfl).1

/-! ### Registry invariant for C3 -/

theorem setAdd_ne_nil (l : List Processor) (p : Processor) : setAdd l p ≠ [] := by
  unfold setAdd
  split_ifs with h
  · exact List.ne_nil_of_mem h
  · simp

theorem mem_setAdd_self (l : List Processor) (p : Processor) : p ∈ setAdd l p := by
  unfold setAdd
  split_ifs with h
  · exact h
  · simp

theorem setAdd_nodup (l : List Processor) (p : Processor) (h : l.Nodup) :
    (setAdd l p).Nodup := by
  unfold setAdd
  split_ifs with hm
  · exact h
  · rw [List.nodup_append]
    exact ⟨h, List.nodup_singleton p, by simpa [List.disjoint_singleton] using hm⟩

theorem startCaptureLoop_processors (s : ProviderState) :
    (startCaptureLoop s).processors = s.processors := by
  unfold startCaptureLoop
  split
  · rfl
  · dsimp only
    split_ifs <;> rfl

theorem startCaptureLoop_captureHelper (s : ProviderState) :
    (startCaptureLoop s).captureHelper = s.captureHelper := by
  unfold startCaptureLoop
  split
  · rfl
  · dsimp only
    split_ifs <;> rfl

theorem startCaptureLoop_xr (s : ProviderState) :
    (startCaptureLoop s).xrSessionPresent = s.xrSessionPresent := by
  unfold startCaptureLoop
  split
  · rfl
  · dsimp only
    split_ifs <;> rfl

theorem wfHelper_of_eq_xr (s t : ProviderState) (h : HelperInfo)
    (hxr : t.xrSessionPresent = s.xrSessionPresent) (hw : wfHelper s h) :
    wfHelper t h := by
  refine ⟨fun hx => ?_, hw.2⟩
  rw [hxr]
  exact hw.1 hx

/-- With a well-formed installed helper, `_startCaptureLoop` always ends
with the capturing flag set (whether it was already running or has just
started streaming / requested the first XR frame). -/
theorem startCaptureLoop_capturing (s : ProviderState) (h : HelperInfo)
    (hh : s.captureHelper = some h) (hwf : wfHelper s h) :
    (startCaptureLoop s).isCapturing = true := by
  by_cases hcap : s.isCapturing = true
  · unfold startCaptureLoop
    rw [hh]
    simp [hcap]
  · have hcap' : s.isCapturing = false := by simpa using hcap
    rcases hx : h.usesXRFrame with _ | _
    · have hs := hwf.2 hx
      unfold startCaptureLoop
      rw [hh]
      simp [hcap', hx, hs]
    · have hxr := hwf.1 hx
      unfold startCaptureLoop
      rw [hh]
      simp [hcap', hx, hxr]

theorem startCaptureLoop_inv (s : ProviderState) (h : HelperInfo)
    (hh : s.captureHelper = some h)
    (hwfall : ∀ h', s.captureHelper = some h' → wfHelper s h')
    (hne : s.processors ≠ []) (hnd : s.processors.Nodup) :
    providerInv (startCaptureLoop s) := by
  refine ⟨?_, ?_, ?_⟩
  · rw [startCaptureLoop_capturing s h hh (hwfall h hh),
      startCaptureLoop_processors, startCaptureLoop_captureHelper, hh]
    simp [hne]
  · intro h' hh'
    rw [startCaptureLoop_captureHelper] at hh'
    exact wfHelper_of_eq_xr s _ h' (startCaptureLoop_xr s) (hwfall h' hh')
  · rw [startCaptureLoop_processors]
    exact hnd

theorem providerInv_init (xr : Bool) : providerInv (initialProviderState xr) := by
  refine ⟨by simp [initialProviderState], ?_, by simp [initialProviderState]⟩
  intro h hh
  simp [initialProviderState] at hh

theorem providerInv_register (s : ProviderState) (p : Processor)
    (hs : providerInv s) : providerInv (registerProcessor s p) := by
  obtain ⟨xr, procs, ch, cap, busy⟩ := s
  obtain ⟨hiff, hwfh, hnd⟩ := hs
  by_cases hv : p.hasProcessImage = false
  · rw [show registerProcessor ⟨xr, procs, ch, cap, busy⟩ p
        = ⟨xr, procs, ch, cap, busy⟩ from by simp [registerProcessor, hv]]
    exact ⟨hiff, hwfh, hnd⟩
  · rcases ch with _ | h
    · have hcapf : cap = false := by
        rcases cap with _ | _
        · rfl
        · simpa using (hiff.mp rfl).2
      subst hcapf
      rw [show registerProcessor ⟨xr, procs, none, false, busy⟩ p
          = ⟨xr, setAdd procs p, none, false, busy⟩ from by
        simp [registerProcessor, hv]]
      refine ⟨by simp, ?_, setAdd_nodup procs p hnd⟩
      intro h' hh'
      simp at hh'
    · have hlen : 0 < (setAdd procs p).length :=
        List.length_pos.mpr (setAdd_ne_nil procs p)
      rcases hcap : cap with _ | _
      · subst hcap
        rw [show registerProcessor ⟨xr, procs, some h, false, busy⟩ p
            = startCaptureLoop ⟨xr, setAdd procs p, some h, false, busy⟩ from by
          simp [registerProcessor, hv, hlen]]
        exact startCaptureLoop_inv _ h rfl
          (fun h' hh' => wfHelper_of_eq_xr _ _ h' rfl (hwfh h' hh'))
          (setAdd_ne_nil procs p) (setAdd_nodup procs p hnd)
      · subst hcap
        rw [show registerProcessor ⟨xr, procs, some h, true, busy⟩ p
            = ⟨xr, setAdd procs p, some h, true, busy⟩ from by
          simp [registerProcessor, hv]]
        refine ⟨by simp [setAdd_ne_nil], ?_, setAdd_nodup procs p hnd⟩
        intro h' hh'
        exact wfHelper_of_eq_xr _ _ h' rfl (hwfh h' hh')

theorem providerInv_unregister (s : ProviderState) (p : Processor)
    (hs : providerInv s) : providerInv (unregisterProcessor s p) := by
  obtain ⟨xr, procs, ch, cap, busy⟩ := s
  obtain ⟨hiff, hwfh, hnd⟩ := hs
  by_cases hguard : cap = true ∧ (procs.erase p).length = 0
  · rw [show unregisterProcessor ⟨xr, procs, ch, cap, busy⟩ p
        = ⟨xr, procs.erase p, ch, false, busy⟩ from by
      simp [unregisterProcessor, hguard.1, hguard.2, stopCaptureLoop]]
    refine ⟨?_, ?_, hnd.erase p⟩
    · have : procs.erase p = [] := List.length_eq_zero.mp hguard.2
      simp [this]
    · intro h' hh'
      exact wfHelper_of_eq_xr _ _ h' rfl (hwfh h' hh')
  · rw [show unregisterProcessor ⟨xr, procs, ch, cap, busy⟩ p
        = ⟨xr, procs.erase p, ch, cap, busy⟩ from by
      simp only [unregisterProcessor, if_neg hguard]]
    refine ⟨?_, ?_, hnd.erase p⟩
    · rcases hcap : cap with _ | _
      · subst hcap
        have hnot : ¬(procs ≠ [] ∧ ch.isSome = true) := by
          intro hx
          exact absurd (hiff.mpr hx) (by simp)
        constructor
        · intro hx
          exact absurd hx (by simp)
        · rintro ⟨hne, hsome⟩
          exfalso
          apply hnot
          refine ⟨fun hpe => hne ?_, hsome⟩
          simp [hpe]
      · subst hcap
        have hrhs := hiff.mp rfl
        have hne : (procs.erase p).length ≠ 0 := fun hz => hguard ⟨rfl, hz⟩
        simp only [true_iff]
        exact ⟨fun he => hne (by simp [he]), hrhs.2⟩
    · intro h' hh'
      exact wfHelper_of_eq_xr _ _ h' rfl (hwfh h' hh')

theorem providerInv_activate (s : ProviderState) (h : HelperInfo)
    (hs : providerInv s) (hwf : wfHelper s h) :
    providerInv (activateSource s h) := by
  obtain ⟨xr, procs, ch, cap, busy⟩ := s
  obtain ⟨hiff, hwfh, hnd⟩ := hs
  rcases hpe : procs with _ | ⟨q, qs⟩
  · subst hpe
    have hcapf : cap = false := by
      rcases cap with _ | _
      · rfl
      · simpa using (hiff.mp rfl).1
    subst hcapf
    rw [show activateSource ⟨xr, [], ch, false, busy⟩ h
        = ⟨xr, [], some h, false, busy⟩ from by simp [activateSource]]
    refine ⟨by simp, ?_, List.nodup_nil⟩
    intro h' hh'
    have : h' = h := by injection hh' with he; exact he.symm
    subst this
    exact wfHelper_of_eq_xr _ _ h' rfl hwf
  · subst hpe
    rcases hcap : cap with _ | _
    · subst hcap
      rw [show activateSource ⟨xr, q :: qs, ch, false, busy⟩ h
          = startCaptureLoop ⟨xr, q :: qs, some h, false, busy⟩ from by
        simp [activateSource]]
      refine startCaptureLoop_inv _ h rfl ?_ (by simp) hnd
      intro h' hh'
      have : h' = h := by injection hh' with he; exact he.symm
      subst this
      exact wfHelper_of_eq_xr _ _ h' rfl hwf
    · subst hcap
      rw [show activateSource ⟨xr, q :: qs, ch, true, busy⟩ h
          = ⟨xr, q :: qs, some h, true, busy⟩ from by simp [activateSource]]
      refine ⟨by simp, ?_, hnd⟩
      intro h' hh'
      have : h' = h := by injection hh' with he; exact he.symm
      subst this
      exact wfHelper_of_eq_xr _ _ h' rfl hwf

theorem providerInv_reachable (s : ProviderState) (hs : ReachableProvider s) :
    providerInv s := by
  induction hs with
  | init xr => exact providerInv_init xr
  | register s p _ ih => exact providerInv_register s p ih
  | unregister s p _ ih => exact providerInv_unregister s p ih
  | activate s h _ hwf ih => exact providerInv_activate s h ih hwf

theorem registerProcessor_captureHelper (s : ProviderState) (p : Processor) :
    (registerProcessor s p).captureHelper = s.captureHelper := by
  by_cases hv : p.hasProcessImage = false
  · simp [registerProcessor, hv]
  · obtain ⟨xr, procs, ch, cap, busy⟩ := s
    unfold registerProcessor
    rw [if_neg hv]
    rcases ch with _ | h
    · rfl
    · dsimp only
      split_ifs with hc
      · rw [startCaptureLoop_captureHelper]
      · rfl

theorem registerProcessor_processors_valid (s : ProviderState) (p : Processor)
    (hv : p.hasProcessImage = true) :
    (registerProcessor s p).processors = setAdd s.processors p := by
  have hv' : ¬p.hasProcessImage = false := by simp [hv]
  obtain ⟨xr, procs, ch, cap, busy⟩ := s
  unfold registerProcessor
  rw [if_neg hv']
  rcases ch with _ | h
  · rfl
  · dsimp only
    split_ifs with hc
    · rw [startCaptureLoop_processors]
    · rfl

theorem registerProcessor_idem (t : ProviderState) (p : Processor)
    (hinv : providerInv t) (hmem : p.hasProcessImage = true → p ∈ t.processors) :
    registerProcessor t p = t := by
  by_cases hv : p.hasProcessImage = false
  · simp [registerProcessor, hv]
  · have hmem' := hmem (by simpa using hv)
    have hsetAdd : setAdd t.processors p = t.processors := by simp [setAdd, hmem']
    obtain ⟨xr, procs, ch, cap, busy⟩ := t
    unfold registerProcessor
    rw [if_neg hv]
    rcases ch with _ | h
    · dsimp only
      rw [show setAdd procs p = procs from hsetAdd]
    · have hcap : cap = true :=
        hinv.1.mpr ⟨List.ne_nil_of_mem hmem', by simp⟩
      subst hcap
      dsimp only
      rw [if_neg (by simp), show setAdd procs p = procs from hsetAdd]

theorem unregister_last_stops (s : ProviderState) (p : Processor)
    (hone : s.processors = [p]) :
    (unregisterProcessor s p).isCapturing = false := by
  obtain ⟨xr, procs, ch, cap, busy⟩ := s
  have : procs = [p] := hone
  subst this
  rcases cap with _ | _ <;>
    simp [unregisterProcessor, List.erase_cons_head, stopCaptureLoop]

theorem unregisterProcessor_idem (s : ProviderState) (p : Processor)
    (hnd : s.processors.Nodup) :
    unregisterProcessor (unregisterProcessor s p) p = unregisterProcessor s p := by
  obtain ⟨xr, procs, ch, cap, busy⟩ := s
  have hnm : p ∉ procs.erase p := by
    intro hm
    have := List.Nodup.mem_erase_iff hnd |>.mp hm
    exact this.1 rfl
  have herase2 : (procs.erase p).erase p = procs.erase p :=
    List.erase_of_not_mem hnm
  by_cases hguard : cap = true ∧ (procs.erase p).length = 0
  · rw [show unregisterProcessor ⟨xr, procs, ch, cap, busy⟩ p
        = ⟨xr, procs.erase p, ch, false, busy⟩ from by
      simp [unregisterProcessor, hguard.1, hguard.2, stopCaptureLoop]]
    simp [unregisterProcessor, herase2]
  · rw [show unregisterProcessor ⟨xr, procs, ch, cap, busy⟩ p
        = ⟨xr, procs.erase p, ch, cap, busy⟩ from by
      simp only [unregisterProcessor, if_neg hguard]]
    simp only [unregisterProcessor, herase2]
    rw [if_neg hguard]

/-- C3: in every state reachable by `registerProcessor`/`unregisterProcessor`
calls and capture-source activations, the capturing flag is true iff at
least one processor is registered and a capture source is active; adding the
first processor while a source is active transitions into capturing;
removing the last processor stops capturing; and re-applying either
operation is idempotent (the flag flips at most once). -/
theorem provider_capturingIff_reachable (s : ProviderState)
    (hs : ReachableProvider s) :
    (s.isCapturing = true ↔ s.processors ≠ [] ∧ s.captureHelper.isSome = true) ∧
    (∀ p : Processor, p.hasProcessImage = true → s.processors = [] →
      s.captureHelper.isSome = true →
      (registerProcessor s p).isCapturing = true) ∧
    (∀ p : Processor, s.processors = [p] →
      (unregisterProcessor s p).isCapturing = false) ∧
    (∀ p : Processor,
      registerProcessor (registerProcessor s p) p = registerProcessor s p) ∧
    (∀ p : Processor,
      unregisterProcessor (unregisterProcessor s p) p = unregisterProcessor s p) := by
  have hinv := providerInv_reachable s hs
  refine ⟨hinv.1, ?_, ?_, ?_, ?_⟩
  · intro p hv hempty hsome
    have hinv' := providerInv_register s p hinv
    apply hinv'.1.mpr
    constructor
    · rw [registerProcessor_processors_valid s p hv]
      exact setAdd_ne_nil s.processors p
    · rw [registerProcessor_captureHelper]
      exact hsome
  · intro p hone
    exact unregister_last_stops s p hone
  · intro p
    apply registerProcessor_idem
    · exact providerInv_register s p hinv
    · intro hv
      rw [registerProcessor_processors_valid s p hv]
      exact mem_setAdd_self s.processors p
  · intro p
    exact unregisterProcessor_idem s p hinv.2.2

/-- Witness for C3 at the concrete reachable state obtained by registering
one processor on a fresh provider and then activating a push-scheduled
capture source. -/
theorem provider_capturingIff_reachable_witness :
    (activateSource (registerProcessor (initialProviderState true) ⟨1, true⟩)
        ⟨false, true⟩).isCapturing = true ↔
      (activateSource (registerProcessor (initialProviderState true) ⟨1, true⟩)
          ⟨false, true⟩).processors ≠ [] ∧
      (activateSource (registerProcessor (initialProviderState true) ⟨1, true⟩)
          ⟨false, true⟩).captureHelper.isSome = true :=
  (provider_capturingIff_reachable _
    (ReachableProvider.activate _ ⟨false, true⟩
      (ReachableProvider.register _ ⟨1, true⟩ (ReachableProvider.init true))
      ⟨fun hx => (nomatch hx), fun _ => rfl⟩)).1

end ArenaCV
